import Mathlib

/-!
Shallow embedding of `src/worker.js`, a caching proxy worker for TheSportsDB.

The worker dispatches on the HTTP method (`addEventListener`, lines 6-13):
OPTIONS requests go to `handleOptions` (lines 142-160), everything else to
`handleRequest` (lines 18-126).  `handleRequest` consults the shared cache
first; on a miss it either aggregates events over a range of dates (no `day`
query parameter, lines 33-100) or passes one day's upstream payload through
(lines 102-125).

Modelling choices:
* An upstream event is a record with its `idEvent` field (possibly absent,
  i.e. `undefined` in JS) made explicit and the remaining fields opaque.
* The outcome of `fetch(url).then(r => r.json())` for one date is a
  `FetchOutcome`: `ok data` when both steps succeed (`data` is the parsed
  payload, whose `events` field may be absent/null = `none`, or an array =
  `some list`, the empty array included), `err msg` when either step rejects.
* JS promises are deterministic settlements here: `Settled` is the
  fulfilled/rejected record that `Promise.allSettled` reports.
* The cache is abstracted by the result of `cache.match(cacheKey)` passed in
  as `cached`; the writes performed via `event.waitUntil(cache.put ...)` are
  collected in `cachePuts`; the upstream URLs fetched are collected in
  `upstreamUrls`.
* The per-date URLs depend on the current time; `dates i` abstracts the
  string `new Date(+i days).toISOString().slice(0, 10)` of loop index `i`,
  and `nowIso` abstracts `new Date().toISOString()` used in `meta.cacheTime`.
-/

/-- One upstream event (data model): the identity field `idEvent`, which a
payload may lack (`none` = JS `undefined`), plus the remaining upstream
fields, kept opaque. -/
structure Event where
  idEvent : Option String
  rest : String
deriving DecidableEq, Repr

/-- Result of `fetch(apiUrl).then(response => response.json())` for one
per-date call: `ok data` when the HTTP fetch and JSON parse both succeed
(`data` is the payload's `events` field: `none` when absent or null, `some
evs` when it is an array, possibly empty), `err msg` when either step
throws. -/
inductive FetchOutcome where
  | ok (events : Option (List Event))
  | err (msg : String)
deriving DecidableEq, Repr

/-- Whether the per-date upstream call itself succeeded (fetch + JSON parse),
regardless of whether the payload carried an events array. -/
def FetchOutcome.isOk : FetchOutcome → Bool
  | .ok _ => true
  | .err _ => false

/-- The fulfilled value of one per-date promise (lines 54-55): either
`{ success: true, data, date }` or `{ success: false, error, date }`. -/
inductive DateResult where
  | ok (events : Option (List Event)) (date : String)
  | fail (error : String) (date : String)
deriving DecidableEq, Repr

/-- A settled promise as reported by `Promise.allSettled`: a
`{ status: 'fulfilled', value }` or `{ status: 'rejected', reason }`
record. -/
inductive Settled (α : Type) where
  | fulfilled (value : α)
  | rejected (reason : String)
deriving DecidableEq, Repr

/-- `status === 'fulfilled'`. -/
def Settled.isFulfilled : Settled α → Bool
  | .fulfilled _ => true
  | .rejected _ => false

/-- The promise chain of lines 52-54 before the `.catch` handler:
`fetch(apiUrl).then(r => r.json()).then(data => ({success: true, data, date}))`.
It settles fulfilled when fetch and parse succeed and rejected otherwise. -/
def rawDatePromise (outcome : FetchOutcome) (dateStr : String) : Settled DateResult :=
  match outcome with
  | .ok data => .fulfilled (.ok data dateStr)
  | .err msg => .rejected msg

/-- Semantics of attaching `.catch(handler)` to a settled promise: a
rejection is converted into fulfillment with the handler's value. -/
def pcatch (p : Settled DateResult) (handler : String → DateResult) : Settled DateResult :=
  match p with
  | .fulfilled v => .fulfilled v
  | .rejected reason => .fulfilled (handler reason)

/-- The handler of line 55: `error => ({ success: false, error: error.message, date: dateStr })`. -/
def catchHandler (dateStr : String) (msg : String) : DateResult :=
  .fail msg dateStr

/-- One element of `datePromises` (lines 51-56): the raw chain with its own
rejection handler attached. -/
def datePromise (outcome : FetchOutcome) (dateStr : String) : Settled DateResult :=
  pcatch (rawDatePromise outcome dateStr) (catchHandler dateStr)

/-- `Promise.allSettled` (line 60): every input here is already a settlement
record, and `allSettled` reports them in order. -/
def allSettled (ps : List (Settled DateResult)) : List (Settled DateResult) :=
  ps

/-- Body of the `results.forEach` callback (lines 64-69): push the events and
bump `successfulFetches` exactly when the result is fulfilled, has
`success: true`, and `data.events` is truthy. -/
def procStep (acc : List Event × Nat) (r : Settled DateResult) : List Event × Nat :=
  match r with
  | .fulfilled (.ok (some evs) _) => (acc.1 ++ evs, acc.2 + 1)
  | _ => acc

/-- Lines 63-69: fold the forEach over the settled results, accumulating
`allEvents` and `successfulFetches` from `([], 0)`. -/
def processResults (results : List (Settled DateResult)) : List Event × Nat :=
  results.foldl procStep ([], 0)

/-- Lines 74-76: `allEvents.filter((event, index, self) => index ===
self.findIndex(e => e.idEvent === event.idEvent))` — keep the element at a
given index exactly when the first index holding an event with the same
`idEvent` is that index. -/
def dedupByIdEvent (l : List Event) : List Event :=
  (l.enum.filter
    (fun ie => ie.1 == l.findIdx (fun e2 => e2.idEvent == ie.2.idEvent))).map Prod.snd

/-- Metadata object of lines 82-87. -/
structure Meta where
  totalFetched : Nat
  uniqueEvents : Nat
  daysFetched : Nat
  cacheTime : String
deriving DecidableEq, Repr

/-- The body of a `Response` the worker builds: `Response(null)`, the
date-range JSON `{ events, meta }`, the re-serialized single-day upstream
payload, or the JSON error object `{ error }`. -/
inductive Body where
  | empty
  | dateRange (events : List Event) (meta : Meta)
  | passthrough (raw : String)
  | errJson (error : String)
deriving DecidableEq, Repr

/-- An HTTP response as the worker constructs it: status (200 when the
`Response` constructor is given no status), body, and ordered header list. -/
structure WResponse where
  status : Nat
  body : Body
  headers : List (String × String)
deriving DecidableEq, Repr

/-- Lines 133-137. -/
def corsHeaders : List (String × String) :=
  [("Access-Control-Allow-Origin", "*"),
   ("Access-Control-Allow-Methods", "GET, HEAD, OPTIONS"),
   ("Access-Control-Allow-Headers", "Content-Type")]

/-- Outcome of the single-day path's upstream interaction (lines 104-106):
`ok raw` when `fetch` and `.json()` both succeed (`raw` standing for the
parsed payload, which line 108 re-serializes), `err msg` when either await
throws and control reaches the `catch` block. -/
inductive SingleDayOutcome where
  | ok (raw : String)
  | err (msg : String)
deriving DecidableEq, Repr

/-- What one invocation of `handleRequest` produces: the response returned to
the client, the responses written to the cache via `event.waitUntil`, and the
upstream URLs fetched. -/
structure HandleResult where
  response : WResponse
  cachePuts : List WResponse
  upstreamUrls : List String
deriving DecidableEq, Repr

/-- The upstream URL template of lines 50 and 104. -/
def apiUrlFor (apiKey dateStr : String) : String :=
  "https://www.thesportsdb.com/api/v1/json/" ++ apiKey ++ "/eventsday.php?d=" ++ dateStr

/-- JS truthiness of `url.searchParams.get('day')` (line 33's `!day`):
`null` (absent) and the empty string are falsy, every other string truthy. -/
def dayIsTruthy : Option String → Bool
  | none => false
  | some s => !(s == "")

/-- `handleRequest` (lines 18-126).  `cached` is the result of
`cache.match(cacheKey)` for this request's normalized identity (line 27);
`day` and `variety` are the query parameters (lines 22-23); `dates` and
`fetchDate` give the per-date strings and upstream outcomes of the date-range
loop; `sd` is the single-day path's upstream outcome. -/
def handleRequest (cached : Option WResponse) (day variety : Option String)
    (dates : Nat → String) (fetchDate : Nat → FetchOutcome)
    (sd : SingleDayOutcome) (apiKey nowIso : String) : HandleResult :=
  match cached with
  | some cachedResponse =>
      { response := cachedResponse, cachePuts := [], upstreamUrls := [] }
  | none =>
    if !(dayIsTruthy day) then
      -- lines 33-100: date-range aggregation path
      let daysToFetch : Nat := if variety == some "max" then 30 else 7
      let results :=
        allSettled ((List.range daysToFetch).map
          (fun i => datePromise (fetchDate i) (dates i)))
      let allEvents := (processResults results).1
      let successfulFetches := (processResults results).2
      let uniqueEvents := dedupByIdEvent allEvents
      let response : WResponse :=
        { status := 200,
          body := .dateRange uniqueEvents
            { totalFetched := allEvents.length,
              uniqueEvents := uniqueEvents.length,
              daysFetched := successfulFetches,
              cacheTime := nowIso },
          headers := [("Content-Type", "application/json")] ++ corsHeaders
            ++ [("Cache-Control", "public, max-age=3600")] }
      { response := response,
        cachePuts := [response],
        upstreamUrls := (List.range daysToFetch).map (fun i => apiUrlFor apiKey (dates i)) }
    else
      -- lines 102-125: single-day path with try/catch
      match sd with
      | .ok raw =>
        let response : WResponse :=
          { status := 200,
            body := .passthrough raw,
            headers := [("Content-Type", "application/json")] ++ corsHeaders
              ++ [("Cache-Control", "public, max-age=1800")] }
        { response := response,
          cachePuts := [response],
          upstreamUrls := [apiUrlFor apiKey (day.getD "")] }
      | .err _ =>
        { response :=
            { status := 500,
              body := .errJson "Failed to fetch data",
              headers := [("Content-Type", "application/json")] ++ corsHeaders },
          cachePuts := [],
          upstreamUrls := [apiUrlFor apiKey (day.getD "")] }

/-- `handleOptions` (lines 142-160), over the three request headers read via
`request.headers.get` (`none` = header absent = JS `null`). -/
def handleOptions (origin acrMethod acrHeaders : Option String) : WResponse :=
  if origin != none && acrMethod != none && acrHeaders != none then
    { status := 200, body := .empty, headers := corsHeaders }
  else
    { status := 200, body := .empty, headers := [("Allow", "GET, HEAD, OPTIONS")] }

/-- The fetch-event dispatcher (lines 6-13): OPTIONS requests go to
`handleOptions` (which touches neither cache nor upstream), every other
method to `handleRequest`. -/
def workerFetch (method : String) (origin acrMethod acrHeaders : Option String)
    (cached : Option WResponse) (day variety : Option String)
    (dates : Nat → String) (fetchDate : Nat → FetchOutcome)
    (sd : SingleDayOutcome) (apiKey nowIso : String) : HandleResult :=
  if method == "OPTIONS" then
    { response := handleOptions origin acrMethod acrHeaders,
      cachePuts := [], upstreamUrls := [] }
  else
    handleRequest cached day variety dates fetchDate sd apiKey nowIso

/-! ### Specification-side helper functions

These phrase, per date, what the forEach loop of lines 64-69 contributes:
the event sequence pushed for that date and whether the date bumps
`successfulFetches`.  They are related to the source translation by the
lemmas below. -/

/-- The events one per-date outcome contributes to `allEvents`: the payload's
array when the call succeeded with a truthy `events` field, nothing
otherwise. -/
def fetchEvents : FetchOutcome → List Event
  | .ok (some evs) => evs
  | _ => []

/-- Whether one per-date outcome is counted by `successfulFetches`:
the call succeeded and the payload's `events` field was truthy. -/
def fetchCounted : FetchOutcome → Bool
  | .ok (some _) => true
  | _ => false

/-- The events a settled per-date result contributes in the forEach of
lines 64-69. -/
def settledEvents : Settled DateResult → List Event
  | .fulfilled (.ok (some evs) _) => evs
  | _ => []

/-- Whether a settled per-date result bumps `successfulFetches`. -/
def settledCounted : Settled DateResult → Bool
  | .fulfilled (.ok (some _) _) => true
  | _ => false

/-- Concatenation of the per-date event sequences in the order the dates were
issued (`i = 0, 1, ..., n-1`). -/
def rangeConcat (n : Nat) (fetchDate : Nat → FetchOutcome) : List Event :=
  ((List.range n).map (fun i => fetchEvents (fetchDate i))).flatten

/-- Line 38: `variety === 'max' ? 30 : 7`. -/
def daysFor (variety : Option String) : Nat :=
  if variety == some "max" then 30 else 7

/-- Number of dates among `0..n-1` whose call succeeded with a truthy
`events` field (what `successfulFetches` counts). -/
def succeededWithEvents (n : Nat) (fetchDate : Nat → FetchOutcome) : Nat :=
  (List.range n).countP (fun i => fetchCounted (fetchDate i))

/-- Whether a body is the date-range aggregation shape `{ events, meta }`. -/
def isDateRangeBody : Body → Bool
  | .dateRange _ _ => true
  | _ => false

/-! ### Deduplication: first-occurrence characterization

`dedupByIdEvent` filters by comparing each index against `findIndex` over the
whole array.  We relate it to a structural recursion `dedupGo` that carries
the identities already seen, and derive the first-occurrence-wins
properties from that. -/

/-- First-occurrence-wins recursion: keep an event exactly when its identity
has not been seen yet. -/
def dedupGo : List Event → List (Option String) → List Event
  | [], _ => []
  | e :: rest, seen =>
    if e.idEvent ∈ seen then dedupGo rest seen
    else e :: dedupGo rest (e.idEvent :: seen)

theorem dedupGo_congr : ∀ (l : List Event) (s t : List (Option String)),
    (∀ k, k ∈ s ↔ k ∈ t) → dedupGo l s = dedupGo l t := by
  intro l
  induction l with
  | nil => intro s t _; rfl
  | cons e rest ih =>
    intro s t h
    by_cases he : e.idEvent ∈ s
    · have het : e.idEvent ∈ t := (h _).mp he
      simp only [dedupGo, if_pos he, if_pos het]
      exact ih s t h
    · have het : e.idEvent ∉ t := fun c => he ((h _).mpr c)
      simp only [dedupGo, if_neg he, if_neg het]
      refine congrArg (e :: ·) (ih _ _ ?_)
      intro k
      simp only [List.mem_cons]
      exact or_congr Iff.rfl (h k)

theorem findIdx_append_none {α : Type} (p : α → Bool) (l2 : List α) :
    ∀ l1 : List α, (∀ x ∈ l1, p x = false) →
    (l1 ++ l2).findIdx p = l1.length + l2.findIdx p := by
  intro l1
  induction l1 with
  | nil => intro _; simp
  | cons a t ih =>
    intro h
    have ha : p a = false := h a (List.mem_cons_self a t)
    have ht := ih (fun x hx => h x (List.mem_cons_of_mem a hx))
    simp only [List.cons_append, List.findIdx_cons, ha, cond_false, ht, List.length_cons]
    omega

theorem findIdx_append_some {α : Type} (p : α → Bool) (l2 : List α) :
    ∀ l1 : List α, (∃ x ∈ l1, p x = true) →
    (l1 ++ l2).findIdx p = l1.findIdx p ∧ l1.findIdx p < l1.length := by
  intro l1
  induction l1 with
  | nil =>
    rintro ⟨x, hx, _⟩
    exact absurd hx (List.not_mem_nil x)
  | cons a t ih =>
    rintro ⟨x, hx, hpx⟩
    by_cases hpa : p a = true
    · constructor <;> simp [List.findIdx_cons, hpa]
    · have hpa' : p a = false := by simpa using hpa
      have hxt : x ∈ t := by
        rcases List.mem_cons.mp hx with h1 | h1
        · exact absurd (h1 ▸ hpx) hpa
        · exact h1
      obtain ⟨h1, h2⟩ := ih ⟨x, hxt, hpx⟩
      simp only [List.cons_append, List.findIdx_cons, hpa', cond_false, List.length_cons]
      omega

theorem dedup_enumFrom (l2 : List Event) :
    ∀ l1 : List Event,
    (((List.enumFrom l1.length l2).filter
        (fun ie => ie.1 == (l1 ++ l2).findIdx (fun e2 => e2.idEvent == ie.2.idEvent))).map
      Prod.snd)
      = dedupGo l2 (l1.map (fun e => e.idEvent)) := by
  induction l2 with
  | nil => intro l1; simp [dedupGo]
  | cons e rest ih =>
    intro l1
    have hsplit : l1 ++ e :: rest = (l1 ++ [e]) ++ rest := by
      simp
    by_cases hmem : e.idEvent ∈ l1.map (fun x => x.idEvent)
    · obtain ⟨x, hx, hxe⟩ := List.mem_map.mp hmem
      have hex : ∃ y ∈ l1, (fun e2 => e2.idEvent == e.idEvent) y = true :=
        ⟨x, hx, by simp [hxe]⟩
      obtain ⟨hfi, hlt⟩ :=
        findIdx_append_some (fun e2 => e2.idEvent == e.idEvent) (e :: rest) l1 hex
      have hcond : (l1.length ==
          (l1 ++ e :: rest).findIdx (fun e2 => e2.idEvent == e.idEvent)) = false := by
        rw [hfi, beq_eq_false_iff_ne]
        omega
      have hih := ih (l1 ++ [e])
      rw [← hsplit] at hih
      simp only [List.length_append, List.length_cons, List.length_nil, Nat.zero_add] at hih
      simp only [List.enumFrom_cons, List.filter_cons, hcond, Bool.false_eq_true, if_false,
        dedupGo, if_pos hmem]
      rw [hih]
      refine dedupGo_congr rest _ _ ?_
      intro k
      simp only [List.map_append, List.map_cons, List.map_nil, List.mem_append,
        List.mem_cons, List.not_mem_nil, or_false]
      constructor
      · rintro (h | h)
        · exact h
        · rw [h]; exact hmem
      · intro h; exact Or.inl h
    · have hall : ∀ y ∈ l1, (fun e2 => e2.idEvent == e.idEvent) y = false := by
        intro y hy
        simp only [beq_eq_false_iff_ne]
        intro hc
        exact hmem (List.mem_map.mpr ⟨y, hy, hc⟩)
      have hfi := findIdx_append_none (fun e2 => e2.idEvent == e.idEvent) (e :: rest) l1 hall
      have hhead : (e :: rest).findIdx (fun e2 => e2.idEvent == e.idEvent) = 0 := by
        simp [List.findIdx_cons]
      have hcond : (l1.length ==
          (l1 ++ e :: rest).findIdx (fun e2 => e2.idEvent == e.idEvent)) = true := by
        rw [hfi, hhead, beq_iff_eq]
        omega
      have hih := ih (l1 ++ [e])
      rw [← hsplit] at hih
      simp only [List.length_append, List.length_cons, List.length_nil, Nat.zero_add] at hih
      simp only [List.enumFrom_cons, List.filter_cons, hcond, if_true, List.map_cons,
        dedupGo, if_neg hmem]
      rw [hih]
      refine congrArg (e :: ·) (dedupGo_congr rest _ _ ?_)
      intro k
      simp only [List.map_append, List.map_cons, List.map_nil, List.mem_append,
        List.mem_cons, List.not_mem_nil, or_false]
      exact Or.comm

theorem dedup_eq_go (l : List Event) : dedupByIdEvent l = dedupGo l [] := by
  have h := dedup_enumFrom l []
  simpa [dedupByIdEvent, List.enum] using h

theorem dedupGo_filter_key (a : Option String) : ∀ (l : List Event) (seen : List (Option String)),
    (dedupGo l seen).filter (fun e => e.idEvent == a)
      = if a ∈ seen then [] else (l.filter (fun e => e.idEvent == a)).take 1 := by
  intro l
  induction l with
  | nil =>
    intro seen
    by_cases h : a ∈ seen <;> simp [dedupGo, h]
  | cons e rest ih =>
    intro seen
    by_cases hseen : e.idEvent ∈ seen
    · by_cases hea : e.idEvent = a
      · have haseen : a ∈ seen := hea ▸ hseen
        simp only [dedupGo, if_pos hseen, ih, if_pos haseen]
      · have hbeq : (e.idEvent == a) = false := beq_eq_false_iff_ne.mpr hea
        simp only [dedupGo, if_pos hseen, ih, List.filter_cons, hbeq,
          Bool.false_eq_true, if_false]
    · by_cases hea : e.idEvent = a
      · have haseen : a ∉ seen := fun c => hseen (hea ▸ c)
        have hbeq : (e.idEvent == a) = true := beq_iff_eq.mpr hea
        have hmem : a ∈ e.idEvent :: seen := by rw [hea] at *; exact List.mem_cons_self a seen
        simp only [dedupGo, if_neg hseen, List.filter_cons, hbeq, if_true, ih,
          if_pos hmem, if_neg haseen, List.take_succ_cons, List.take_zero]
      · have hbeq : (e.idEvent == a) = false := beq_eq_false_iff_ne.mpr hea
        have hmem : (a ∈ e.idEvent :: seen) ↔ (a ∈ seen) := by
          simp only [List.mem_cons]
          constructor
          · rintro (h | h)
            · exact absurd h.symm hea
            · exact h
          · exact Or.inr
        simp only [dedupGo, if_neg hseen, List.filter_cons, hbeq, Bool.false_eq_true,
          if_false, ih, hmem]

theorem dedup_filter_key (l : List Event) (a : Option String) :
    (dedupByIdEvent l).filter (fun e => e.idEvent == a)
      = (l.filter (fun e => e.idEvent == a)).take 1 := by
  rw [dedup_eq_go]
  simpa using dedupGo_filter_key a l []

theorem dedupGo_length_le : ∀ (l : List Event) (seen : List (Option String)),
    (dedupGo l seen).length ≤ l.length := by
  intro l
  induction l with
  | nil => intro seen; simp [dedupGo]
  | cons e rest ih =>
    intro seen
    by_cases h : e.idEvent ∈ seen
    · simp only [dedupGo, if_pos h, List.length_cons]
      exact Nat.le_succ_of_le (ih seen)
    · simp only [dedupGo, if_neg h, List.length_cons]
      exact Nat.succ_le_succ (ih _)

theorem dedup_length_le (l : List Event) : (dedupByIdEvent l).length ≤ l.length := by
  rw [dedup_eq_go]
  exact dedupGo_length_le l []

/-! ### The date-range path of `handleRequest`, unfolded -/

theorem settledEvents_datePromise (o : FetchOutcome) (d : String) :
    settledEvents (datePromise o d) = fetchEvents o := by
  cases o with
  | ok data => cases data <;> rfl
  | err m => rfl

theorem settledCounted_datePromise (o : FetchOutcome) (d : String) :
    settledCounted (datePromise o d) = fetchCounted o := by
  cases o with
  | ok data => cases data <;> rfl
  | err m => rfl

theorem processResults_foldl :
    ∀ (results : List (Settled DateResult)) (acc : List Event × Nat),
    results.foldl procStep acc
      = (acc.1 ++ (results.map settledEvents).flatten,
         acc.2 + results.countP settledCounted) := by
  intro results
  induction results with
  | nil => intro acc; simp
  | cons r rest ih =>
    intro acc
    cases r with
    | fulfilled v =>
      cases v with
      | ok data d =>
        cases data with
        | none =>
          simp [List.foldl_cons, procStep, ih, settledEvents, settledCounted,
            List.countP_cons]
        | some evs =>
          simp [List.foldl_cons, procStep, ih, settledEvents, settledCounted,
            List.countP_cons, List.append_assoc, Prod.ext_iff]
          omega
      | fail msg d =>
        simp [List.foldl_cons, procStep, ih, settledEvents, settledCounted,
          List.countP_cons]
    | rejected m =>
      simp [List.foldl_cons, procStep, ih, settledEvents, settledCounted,
        List.countP_cons]

theorem processResults_eq (results : List (Settled DateResult)) :
    processResults results
      = ((results.map settledEvents).flatten, results.countP settledCounted) := by
  simpa [processResults] using processResults_foldl results ([], 0)

/-- The response the date-range path builds, phrased through the helper
functions. -/
def dateRangeResponse (n : Nat) (fetchDate : Nat → FetchOutcome) (nowIso : String) : WResponse :=
  { status := 200,
    body := .dateRange (dedupByIdEvent (rangeConcat n fetchDate))
      { totalFetched := (rangeConcat n fetchDate).length,
        uniqueEvents := (dedupByIdEvent (rangeConcat n fetchDate)).length,
        daysFetched := succeededWithEvents n fetchDate,
        cacheTime := nowIso },
    headers := [("Content-Type", "application/json")] ++ corsHeaders
      ++ [("Cache-Control", "public, max-age=3600")] }

theorem handleRequest_dateRange (day variety : Option String) (dates : Nat → String)
    (fetchDate : Nat → FetchOutcome) (sd : SingleDayOutcome) (apiKey nowIso : String)
    (hday : dayIsTruthy day = false) :
    handleRequest none day variety dates fetchDate sd apiKey nowIso =
      { response := dateRangeResponse (daysFor variety) fetchDate nowIso,
        cachePuts := [dateRangeResponse (daysFor variety) fetchDate nowIso],
        upstreamUrls :=
          (List.range (daysFor variety)).map (fun i => apiUrlFor apiKey (dates i)) } := by
  have hmap : ((List.range (daysFor variety)).map
        (fun i => datePromise (fetchDate i) (dates i))).map settledEvents
      = (List.range (daysFor variety)).map (fun i => fetchEvents (fetchDate i)) := by
    rw [List.map_map]
    exact List.map_congr_left (fun i _ => settledEvents_datePromise (fetchDate i) (dates i))
  have hcnt : ((List.range (daysFor variety)).map
        (fun i => datePromise (fetchDate i) (dates i))).countP settledCounted
      = succeededWithEvents (daysFor variety) fetchDate := by
    rw [List.countP_map]
    refine List.countP_congr ?_
    intro i _
    simp [Function.comp, settledCounted_datePromise]
  simp only [daysFor] at hmap hcnt
  simp only [handleRequest, hday, Bool.not_false, if_true, allSettled, processResults_eq,
    hmap, hcnt, dateRangeResponse, rangeConcat, succeededWithEvents, daysFor]

/-! ### Claim theorems -/

/-- Concrete per-date outcomes for instantiating the date-range theorems:
dates 0 and 1 both return an event with identity E1, later dates fail. -/
def sampleFetchDup : Nat → FetchOutcome :=
  fun i =>
    if i = 0 then
      .ok (some [{ idEvent := some "E1", rest := "a" },
                 { idEvent := some "E2", rest := "b" }])
    else if i = 1 then .ok (some [{ idEvent := some "E1", rest := "c" }])
    else .err "down"

/-- C1: on the date-range path (no day parameter) the response's events array
is the concatenation of the successfully-returned per-date event sequences in
the order the dates were issued, deduplicated by `idEvent` keeping the first
occurrence in concatenation order: for every identity, the output retains
exactly the first matching event of the concatenation (so of two dates
overlapping on an identity, the earlier date's event survives). -/
theorem dateRange_events_are_dedup_of_concat (day variety : Option String)
    (dates : Nat → String) (fetchDate : Nat → FetchOutcome) (sd : SingleDayOutcome)
    (apiKey nowIso : String) (hday : dayIsTruthy day = false) :
    ∃ m : Meta,
      (handleRequest none day variety dates fetchDate sd apiKey nowIso).response.body
        = Body.dateRange (dedupByIdEvent (rangeConcat (daysFor variety) fetchDate)) m
      ∧ ∀ a : Option String,
          (dedupByIdEvent (rangeConcat (daysFor variety) fetchDate)).filter
              (fun e => e.idEvent == a)
            = ((rangeConcat (daysFor variety) fetchDate).filter
                (fun e => e.idEvent == a)).take 1 := by
  refine ⟨{ totalFetched := (rangeConcat (daysFor variety) fetchDate).length,
            uniqueEvents := (dedupByIdEvent (rangeConcat (daysFor variety) fetchDate)).length,
            daysFetched := succeededWithEvents (daysFor variety) fetchDate,
            cacheTime := nowIso }, ?_, fun a => dedup_filter_key _ a⟩
  rw [handleRequest_dateRange day variety dates fetchDate sd apiKey nowIso hday]
  rfl

/-- Witness for C1: the date-range theorem applied at a concrete input where
dates 0 and 1 overlap on identity E1. -/
theorem dateRange_events_are_dedup_of_concat_witness :
    ∃ m : Meta,
      (handleRequest none none none (fun _ => "d") sampleFetchDup (.ok "p") "k" "t").response.body
        = Body.dateRange (dedupByIdEvent (rangeConcat (daysFor none) sampleFetchDup)) m
      ∧ ∀ a : Option String,
          (dedupByIdEvent (rangeConcat (daysFor none) sampleFetchDup)).filter
              (fun e => e.idEvent == a)
            = ((rangeConcat (daysFor none) sampleFetchDup).filter
                (fun e => e.idEvent == a)).take 1 :=
  dateRange_events_are_dedup_of_concat none none (fun _ => "d") sampleFetchDup
    (.ok "p") "k" "t" rfl

/-- C2 counterexample: all seven per-date upstream calls succeed but each
payload's `events` field is null.  Every call succeeded, yet the response's
`meta.daysFetched` is 0, not 7: `successfulFetches` (line 65) counts only
fulfilled results whose `data.events` is truthy, not successful calls. -/
theorem meta_daysFetched_counterexample :
    (handleRequest none none none (fun _ => "d") (fun _ => FetchOutcome.ok none)
        (.ok "p") "k" "t").response.body
      = Body.dateRange []
          { totalFetched := 0, uniqueEvents := 0, daysFetched := 0, cacheTime := "t" }
    ∧ ((List.range 7).map (fun _ => FetchOutcome.ok none)).countP FetchOutcome.isOk = 7
    ∧ (0 : Nat) ≠ 7 := by
  refine ⟨by decide, by decide, by decide⟩

/-- C2 amended: for every date-range response, `meta.uniqueEvents <=
meta.totalFetched`; `meta.daysFetched` equals the number of per-date calls
that succeeded AND returned a truthy `events` field (successful calls whose
payload lacks an events array are not counted). -/
theorem dateRange_meta_counts (day variety : Option String) (dates : Nat → String)
    (fetchDate : Nat → FetchOutcome) (sd : SingleDayOutcome) (apiKey nowIso : String)
    (hday : dayIsTruthy day = false) :
    ∃ events : List Event,
      (handleRequest none day variety dates fetchDate sd apiKey nowIso).response.body
        = Body.dateRange events
            { totalFetched := (rangeConcat (daysFor variety) fetchDate).length,
              uniqueEvents := events.length,
              daysFetched := succeededWithEvents (daysFor variety) fetchDate,
              cacheTime := nowIso }
      ∧ events.length ≤ (rangeConcat (daysFor variety) fetchDate).length := by
  refine ⟨dedupByIdEvent (rangeConcat (daysFor variety) fetchDate), ?_, dedup_length_le _⟩
  rw [handleRequest_dateRange day variety dates fetchDate sd apiKey nowIso hday]
  rfl

/-- Concrete per-date outcomes mixing duplicate events, a success with a null
events field, and failures. -/
def sampleFetchMixed : Nat → FetchOutcome :=
  fun i =>
    if i = 0 then
      .ok (some [{ idEvent := some "E1", rest := "a" },
                 { idEvent := some "E1", rest := "b" }])
    else if i = 1 then .ok none
    else .err "down"

/-- Witness for the amended C2 at a concrete mixed input. -/
theorem dateRange_meta_counts_witness :
    ∃ events : List Event,
      (handleRequest none none none (fun _ => "d") sampleFetchMixed (.ok "p") "k" "t").response.body
        = Body.dateRange events
            { totalFetched := (rangeConcat (daysFor none) sampleFetchMixed).length,
              uniqueEvents := events.length,
              daysFetched := succeededWithEvents (daysFor none) sampleFetchMixed,
              cacheTime := "t" }
      ∧ events.length ≤ (rangeConcat (daysFor none) sampleFetchMixed).length :=
  dateRange_meta_counts none none (fun _ => "d") sampleFetchMixed (.ok "p") "k" "t" rfl

/-- C3: on the date-range path, each date's contribution to the response is a
function of that date's own outcome alone (the per-slot decomposition below),
any mix of per-date outcomes yields a status-200 `{ events, meta }` response,
and an all-dates-failed outcome is not an error: it yields the same
well-formed success response with an empty events array and meta showing zero
successful dates. -/
theorem dateRange_failures_isolated (day variety : Option String) (dates : Nat → String)
    (fetchDate : Nat → FetchOutcome) (sd : SingleDayOutcome) (apiKey nowIso : String)
    (hday : dayIsTruthy day = false) :
    (handleRequest none day variety dates fetchDate sd apiKey nowIso).response.status = 200
    ∧ (handleRequest none day variety dates fetchDate sd apiKey nowIso).response.body
        = Body.dateRange
            (dedupByIdEvent
              (((List.range (daysFor variety)).map (fun i => fetchEvents (fetchDate i))).flatten))
            { totalFetched :=
                (((List.range (daysFor variety)).map (fun i => fetchEvents (fetchDate i))).flatten).length,
              uniqueEvents :=
                (dedupByIdEvent
                  (((List.range (daysFor variety)).map (fun i => fetchEvents (fetchDate i))).flatten)).length,
              daysFetched :=
                (List.range (daysFor variety)).countP (fun i => fetchCounted (fetchDate i)),
              cacheTime := nowIso }
    ∧ ((∀ i, i < daysFor variety → (fetchDate i).isOk = false) →
        (handleRequest none day variety dates fetchDate sd apiKey nowIso).response.body
          = Body.dateRange []
              { totalFetched := 0, uniqueEvents := 0, daysFetched := 0, cacheTime := nowIso }) := by
  rw [handleRequest_dateRange day variety dates fetchDate sd apiKey nowIso hday]
  refine ⟨rfl, rfl, ?_⟩
  intro hall
  have hnil : ∀ i ∈ List.range (daysFor variety), fetchEvents (fetchDate i) = [] := by
    intro i hi
    have hfail := hall i (List.mem_range.mp hi)
    cases hf : fetchDate i with
    | ok d => rw [hf] at hfail; cases hfail
    | err m => rfl
  have hconcat :
      ((List.range (daysFor variety)).map (fun i => fetchEvents (fetchDate i))).flatten = [] := by
    rw [List.map_congr_left hnil]
    simp
  have hcount :
      (List.range (daysFor variety)).countP (fun i => fetchCounted (fetchDate i)) = 0 := by
    rw [List.countP_eq_zero]
    intro i hi
    have hfail := hall i (List.mem_range.mp hi)
    cases hf : fetchDate i with
    | ok d => rw [hf] at hfail; cases hfail
    | err m => simp [fetchCounted]
  simp only [dateRangeResponse, rangeConcat, succeededWithEvents, hconcat, hcount]
  rfl

/-- Witness for C3: the theorem applied with every per-date call failing. -/
theorem dateRange_failures_isolated_witness :
    (handleRequest none none none (fun _ => "d") (fun _ => FetchOutcome.err "down")
        (.ok "p") "k" "t").response.status = 200
    ∧ (handleRequest none none none (fun _ => "d") (fun _ => FetchOutcome.err "down")
        (.ok "p") "k" "t").response.body
        = Body.dateRange
            (dedupByIdEvent
              (((List.range (daysFor none)).map
                (fun i => fetchEvents ((fun _ => FetchOutcome.err "down") i))).flatten))
            { totalFetched :=
                (((List.range (daysFor none)).map
                  (fun i => fetchEvents ((fun _ => FetchOutcome.err "down") i))).flatten).length,
              uniqueEvents :=
                (dedupByIdEvent
                  (((List.range (daysFor none)).map
                    (fun i => fetchEvents ((fun _ => FetchOutcome.err "down") i))).flatten)).length,
              daysFetched :=
                (List.range (daysFor none)).countP
                  (fun i => fetchCounted ((fun _ => FetchOutcome.err "down") i)),
              cacheTime := "t" }
    ∧ ((∀ i, i < daysFor none → ((fun _ => FetchOutcome.err "down") i : FetchOutcome).isOk = false) →
        (handleRequest none none none (fun _ => "d") (fun _ => FetchOutcome.err "down")
            (.ok "p") "k" "t").response.body
          = Body.dateRange []
              { totalFetched := 0, uniqueEvents := 0, daysFetched := 0, cacheTime := "t" }) :=
  dateRange_failures_isolated none none (fun _ => "d") (fun _ => FetchOutcome.err "down")
    (.ok "p") "k" "t" rfl

/-- C4 counterexample: a request with the day parameter present but empty
(`?day=`) takes the date-range path, not the single-day path the claim
requires: `searchParams.get('day')` returns the empty string, which is falsy
at line 33. -/
theorem day_present_empty_counterexample :
    isDateRangeBody (handleRequest none (some "") none (fun _ => "d")
        (fun _ => FetchOutcome.err "down") (.ok "P") "k" "t").response.body = true
    ∧ (handleRequest none (some "") none (fun _ => "d")
        (fun _ => FetchOutcome.err "down") (.ok "P") "k" "t").response.body
        ≠ Body.passthrough "P"
    ∧ ("Cache-Control", "public, max-age=1800")
        ∉ (handleRequest none (some "") none (fun _ => "d")
            (fun _ => FetchOutcome.err "down") (.ok "P") "k" "t").response.headers := by
  refine ⟨by decide, by decide, by decide⟩

/-- C4 amended: on a cache miss exactly one path executes, chosen by the
truthiness of the day parameter: a present non-empty day takes the single-day
path (one upstream call; on success `Cache-Control: public, max-age=1800`),
while an absent or empty day takes the date-range path with dayCount 30 when
variety is "max" and 7 otherwise (`Cache-Control: public, max-age=3600`). -/
theorem resolve_single_path (day variety : Option String) (dates : Nat → String)
    (fetchDate : Nat → FetchOutcome) (sd : SingleDayOutcome) (apiKey nowIso : String) :
    (dayIsTruthy day = true →
      (handleRequest none day variety dates fetchDate sd apiKey nowIso).upstreamUrls
          = [apiUrlFor apiKey (day.getD "")]
      ∧ ∀ raw, sd = SingleDayOutcome.ok raw →
          (handleRequest none day variety dates fetchDate sd apiKey nowIso).response
            = { status := 200, body := .passthrough raw,
                headers := [("Content-Type", "application/json")] ++ corsHeaders
                  ++ [("Cache-Control", "public, max-age=1800")] })
    ∧ (dayIsTruthy day = false →
      isDateRangeBody
          (handleRequest none day variety dates fetchDate sd apiKey nowIso).response.body = true
      ∧ (handleRequest none day variety dates fetchDate sd apiKey nowIso).upstreamUrls.length
          = (if variety == some "max" then 30 else 7)
      ∧ ("Cache-Control", "public, max-age=3600")
          ∈ (handleRequest none day variety dates fetchDate sd apiKey nowIso).response.headers) := by
  constructor
  · intro hday
    cases sd with
    | ok raw =>
      refine ⟨?_, ?_⟩
      · simp [handleRequest, hday]
      · rintro r hr
        injection hr with hr
        subst hr
        simp [handleRequest, hday]
    | err m =>
      refine ⟨?_, ?_⟩
      · simp [handleRequest, hday]
      · rintro r hr
        cases hr
  · intro hday
    rw [handleRequest_dateRange day variety dates fetchDate sd apiKey nowIso hday]
    refine ⟨rfl, ?_, ?_⟩
    · simp [daysFor]
    · simp [dateRangeResponse, corsHeaders]

/-- Witness for the amended C4: a non-empty day takes the single-day path
with the 30-minute freshness header. -/
theorem resolve_single_path_witness :
    (handleRequest none (some "2024-05-01") none (fun _ => "d")
        (fun _ => FetchOutcome.err "down") (.ok "P") "k" "t").response
      = { status := 200, body := .passthrough "P",
          headers := [("Content-Type", "application/json")] ++ corsHeaders
            ++ [("Cache-Control", "public, max-age=1800")] } :=
  ((resolve_single_path (some "2024-05-01") none (fun _ => "d")
      (fun _ => FetchOutcome.err "down") (.ok "P") "k" "t").1 rfl).2 "P" rfl

/-- C5: for every non-OPTIONS request, the cache is consulted first; when a
cached response exists for the request's normalized identity, that stored
response is returned unchanged (the very same value) and the request issues
no upstream call and no cache write. -/
theorem cache_hit_returned_unchanged (method : String)
    (origin acrMethod acrHeaders : Option String) (r : WResponse)
    (day variety : Option String) (dates : Nat → String)
    (fetchDate : Nat → FetchOutcome) (sd : SingleDayOutcome) (apiKey nowIso : String)
    (hm : (method == "OPTIONS") = false) :
    workerFetch method origin acrMethod acrHeaders (some r) day variety dates fetchDate
        sd apiKey nowIso
      = { response := r, cachePuts := [], upstreamUrls := [] } := by
  simp only [workerFetch, hm, Bool.false_eq_true, if_false, handleRequest]

/-- Witness for C5: a GET request with a cached response gets exactly that
response back. -/
theorem cache_hit_returned_unchanged_witness :
    workerFetch "GET" none none none
        (some { status := 200, body := .passthrough "old", headers := corsHeaders })
        none none (fun _ => "d") (fun _ => FetchOutcome.err "down") (.ok "new") "k" "t"
      = { response := { status := 200, body := .passthrough "old", headers := corsHeaders },
          cachePuts := [], upstreamUrls := [] } :=
  cache_hit_returned_unchanged "GET" none none none
    { status := 200, body := .passthrough "old", headers := corsHeaders }
    none none (fun _ => "d") (fun _ => FetchOutcome.err "down") (.ok "new") "k" "t" rfl

/-- C6 counterexample: a request whose day parameter holds an invalid,
non-empty value (`?day=not-a-date`) does not default to the date-range path:
the single-day path executes and passes the value upstream unvalidated. -/
theorem invalid_day_counterexample :
    isDateRangeBody (handleRequest none (some "not-a-date") none (fun _ => "d")
        (fun _ => FetchOutcome.err "down") (.ok "P") "k" "t").response.body = false
    ∧ (handleRequest none (some "not-a-date") none (fun _ => "d")
        (fun _ => FetchOutcome.err "down") (.ok "P") "k" "t").response.body
        = Body.passthrough "P"
    ∧ (handleRequest none (some "not-a-date") none (fun _ => "d")
        (fun _ => FetchOutcome.err "down") (.ok "P") "k" "t").upstreamUrls
        = [apiUrlFor "k" "not-a-date"] := by
  refine ⟨by decide, by decide, by decide⟩

/-- C6 amended: a request whose day parameter is absent or empty defaults to
the date-range path and never errors (status 200, `{ events, meta }` body)
for every variety value; a present non-empty day value, valid date or not, is
not validated and takes the single-day path instead. -/
theorem absent_day_defaults_to_dateRange (day variety : Option String)
    (dates : Nat → String) (fetchDate : Nat → FetchOutcome) (sd : SingleDayOutcome)
    (apiKey nowIso : String) :
    ((day = none ∨ day = some "") →
      isDateRangeBody
          (handleRequest none day variety dates fetchDate sd apiKey nowIso).response.body = true
      ∧ (handleRequest none day variety dates fetchDate sd apiKey nowIso).response.status = 200)
    ∧ (∀ s, day = some s → s ≠ "" →
        isDateRangeBody
          (handleRequest none day variety dates fetchDate sd apiKey nowIso).response.body = false) := by
  constructor
  · intro hday
    have hfalse : dayIsTruthy day = false := by
      rcases hday with h | h <;> subst h <;> simp [dayIsTruthy]
    rw [handleRequest_dateRange day variety dates fetchDate sd apiKey nowIso hfalse]
    exact ⟨rfl, rfl⟩
  · rintro s rfl hs
    have htrue : dayIsTruthy (some s) = true := by
      simp [dayIsTruthy, hs]
    cases sd with
    | ok raw => simp [handleRequest, htrue, isDateRangeBody]
    | err m => simp [handleRequest, htrue, isDateRangeBody]

/-- Witness for the amended C6: the empty-valued day parameter yields the
date-range success response. -/
theorem absent_day_defaults_to_dateRange_witness :
    isDateRangeBody (handleRequest none (some "") none (fun _ => "d")
        (fun _ => FetchOutcome.err "down") (.ok "P") "k" "t").response.body = true
    ∧ (handleRequest none (some "") none (fun _ => "d")
        (fun _ => FetchOutcome.err "down") (.ok "P") "k" "t").response.status = 200 :=
  (absent_day_defaults_to_dateRange (some "") none (fun _ => "d")
      (fun _ => FetchOutcome.err "down") (.ok "P") "k" "t").1 (Or.inr rfl)

/-- C7: when request handling fails at the whole-strategy level (the
single-day path's try/catch is the only such point), the response is the JSON
error object with status 500 and the CORS headers, and no 500 response is
ever written to the cache. -/
theorem strategy_failure_response (cached : Option WResponse) (day variety : Option String)
    (dates : Nat → String) (fetchDate : Nat → FetchOutcome) (sd : SingleDayOutcome)
    (apiKey nowIso : String) :
    (cached = none → dayIsTruthy day = true → ∀ msg, sd = SingleDayOutcome.err msg →
      handleRequest cached day variety dates fetchDate sd apiKey nowIso
        = { response :=
              { status := 500, body := .errJson "Failed to fetch data",
                headers := [("Content-Type", "application/json")] ++ corsHeaders },
            cachePuts := [], upstreamUrls := [apiUrlFor apiKey (day.getD "")] })
    ∧ ((handleRequest cached day variety dates fetchDate sd apiKey nowIso).response.status = 500 →
        (handleRequest cached day variety dates fetchDate sd apiKey nowIso).cachePuts = []) := by
  constructor
  · rintro rfl hday msg rfl
    simp [handleRequest, hday]
  · intro h500
    cases cached with
    | some r => rfl
    | none =>
      by_cases hday : dayIsTruthy day = true
      · cases sd with
        | ok raw => simp [handleRequest, hday] at h500
        | err m => simp [handleRequest, hday]
      · have hfalse : dayIsTruthy day = false := by
          cases h : dayIsTruthy day
          · rfl
          · exact absurd h hday
        rw [handleRequest_dateRange day variety dates fetchDate sd apiKey nowIso hfalse] at h500
        cases h500

/-- Witness for C7: a single-day request whose upstream interaction throws
gets the uncached 500 JSON error response. -/
theorem strategy_failure_response_witness :
    handleRequest none (some "2024-05-01") none (fun _ => "d")
        (fun _ => FetchOutcome.err "down") (.err "boom") "k" "t"
      = { response :=
            { status := 500, body := .errJson "Failed to fetch data",
              headers := [("Content-Type", "application/json")] ++ corsHeaders },
          cachePuts := [],
          upstreamUrls := [apiUrlFor "k" ((some "2024-05-01").getD "")] } :=
  (strategy_failure_response none (some "2024-05-01") none (fun _ => "d")
      (fun _ => FetchOutcome.err "down") (.err "boom") "k" "t").1 rfl rfl "boom" rfl

/-- C8: an OPTIONS request carrying Origin, Access-Control-Request-Method and
Access-Control-Request-Headers gets a 200 response with empty body and
exactly the CORS headers; an OPTIONS request missing any of the three gets a
200 empty-body response whose only header is `Allow: GET, HEAD, OPTIONS` (so
no CORS headers). -/
theorem options_preflight (origin acrMethod acrHeaders : Option String) :
    ((origin ≠ none ∧ acrMethod ≠ none ∧ acrHeaders ≠ none) →
      handleOptions origin acrMethod acrHeaders
        = { status := 200, body := .empty, headers := corsHeaders })
    ∧ ((origin = none ∨ acrMethod = none ∨ acrHeaders = none) →
      handleOptions origin acrMethod acrHeaders
        = { status := 200, body := .empty, headers := [("Allow", "GET, HEAD, OPTIONS")] }) := by
  cases origin <;> cases acrMethod <;> cases acrHeaders <;>
    exact ⟨fun h => by simp_all [handleOptions], fun h => by simp_all [handleOptions]⟩

/-- Witness for C8: with all three preflight headers present the CORS
response is returned. -/
theorem options_preflight_witness :
    handleOptions (some "https://example.org") (some "GET") (some "Content-Type")
      = { status := 200, body := .empty, headers := corsHeaders } :=
  (options_preflight (some "https://example.org") (some "GET") (some "Content-Type")).1
    ⟨Option.some_ne_none _, Option.some_ne_none _, Option.some_ne_none _⟩

/-- C9: every per-date promise settles fulfilled: the barrier receives one
settlement per issued date, all with fulfilled status (so the rejected branch
of the forEach is unreachable), because the attached catch handler converts
any fetch or parse failure into the fulfilled `{ success: false, error,
date }` value. -/
theorem datePromises_never_reject (n : Nat) (fetchDate : Nat → FetchOutcome)
    (dates : Nat → String) :
    (allSettled ((List.range n).map (fun i => datePromise (fetchDate i) (dates i)))).length = n
    ∧ (allSettled ((List.range n).map
        (fun i => datePromise (fetchDate i) (dates i)))).all Settled.isFulfilled = true
    ∧ (∀ i m, fetchDate i = FetchOutcome.err m →
        datePromise (fetchDate i) (dates i)
          = Settled.fulfilled (DateResult.fail m (dates i))) := by
  refine ⟨?_, ?_, ?_⟩
  · simp [allSettled]
  · rw [List.all_eq_true]
    intro x hx
    obtain ⟨i, _, hxi⟩ := List.mem_map.mp hx
    subst hxi
    cases fetchDate i <;> rfl
  · intro i m h
    rw [h]
    rfl

/-- Witness for C9: with a failing upstream the per-date promise still
fulfills, carrying the failure record. -/
theorem datePromises_never_reject_witness :
    datePromise ((fun _ => FetchOutcome.err "boom") 0 : FetchOutcome) ((fun _ => "d") 0)
      = Settled.fulfilled (DateResult.fail "boom" ((fun _ => "d") 0)) :=
  (datePromises_never_reject 3 (fun _ => FetchOutcome.err "boom") (fun _ => "d")).2.2
    0 "boom" rfl

/-- C10: deduplication compares solely the `idEvent` field, so all events
lacking one (idEvent undefined) share a single identity: the output retains
exactly the first id-less event of the input in concatenation order, hence at
most one. -/
theorem dedup_missing_ids_share_identity (l : List Event) :
    (dedupByIdEvent l).filter (fun e => e.idEvent == (none : Option String))
      = (l.filter (fun e => e.idEvent == (none : Option String))).take 1
    ∧ (dedupByIdEvent l).countP (fun e => e.idEvent == (none : Option String)) ≤ 1 := by
  refine ⟨dedup_filter_key l none, ?_⟩
  rw [List.countP_eq_length_filter, dedup_filter_key l none]
  exact List.length_take_le 1 _
